import Mathlib

/-! Shallow embedding of the diagnostic-entry core of the `prologue_logger`
crate (src/src/lib.rs, src/src/error.rs): annotated source lines with
overlap validation, source blocks, entries, entry groups, and the counting
targets, together with proofs of the specified properties. -/

namespace Prologue

/-- Kind of a log entry, from the `EntryKind` enum of src/src/lib.rs; the
derived order is declaration order, Help < Note < Warning < Error. -/
inductive EntryKind where
  | Help
  | Note
  | Warning
  | Error
deriving DecidableEq, Repr

/-- Discriminant of `EntryKind` in declaration order, realizing the derived
Rust ordering of the enum. -/
def EntryKind.toNat : EntryKind → Nat
  | .Help => 0
  | .Note => 1
  | .Warning => 2
  | .Error => 3

/-- Maximum of two entry kinds under the derived order (ties keep the second
argument, as Rust `Ord::max` does). -/
def EntryKind.maxK (a b : EntryKind) : EntryKind :=
  if a.toNat ≤ b.toNat then b else a

/-- Iterator maximum over entry kinds: none on the empty list, otherwise the
fold of the pairwise maximum from the first element. -/
def iterMaxK : List EntryKind → Option EntryKind
  | [] => none
  | k :: ks => some (ks.foldl EntryKind.maxK k)

/-- Iterator maximum over naturals, as Rust `Iterator::max` computes it. -/
def iterMax : List Nat → Option Nat
  | [] => none
  | n :: ns => some (ns.foldl Nat.max n)

/-- Span of an annotation on one line, from `AnnotationReference` in the
source: a half-open range starting at `position` of `len` characters. -/
structure AnnotRef where
  position : Nat
  len : Nat
deriving DecidableEq, Repr

/-- Two spans conflict when neither lies entirely before nor entirely after
the other; spans touching at a boundary do not conflict. -/
def AnnotRef.overlaps (a b : AnnotRef) : Prop :=
  ¬(a.position + a.len ≤ b.position) ∧ ¬(b.position + b.len ≤ a.position)

instance (a b : AnnotRef) : Decidable (a.overlaps b) := by
  unfold AnnotRef.overlaps
  infer_instance

/-- One annotation of a source line, from the `Annotation` struct of the
source: a severity style, a span and the call-out text. -/
structure Annot where
  style : EntryKind
  reference : AnnotRef
  text : String
deriving DecidableEq, Repr

/-- Comparison keeping a line's annotations sorted: the derived order on
annotations compares the reference `position` only. -/
def annLE (a b : Annot) : Prop :=
  a.reference.position ≤ b.reference.position

instance : DecidableRel annLE := fun a b =>
  inferInstanceAs (Decidable (a.reference.position ≤ b.reference.position))

instance : IsTotal Annot annLE := ⟨fun _ _ => Nat.le_total _ _⟩

instance : IsTrans Annot annLE := ⟨fun _ _ _ => Nat.le_trans⟩

/-- Error kinds from src/src/error.rs reached by the modelled operations. -/
inductive ErrorKind where
  | TargetAlreadyExists (name : String)
  | AnnotationOnEmptyLine
  | OverlappingAnnot
deriving DecidableEq, Repr

/-- One annotated source line, from the `SourceLine` struct of the source. -/
structure SourceLine where
  line : Nat
  contents : String
  annotations : List Annot
deriving DecidableEq, Repr

/-- Fresh source line with no annotations. -/
def SourceLine.new (line : Nat) (contents : String) : SourceLine :=
  { line := line, contents := contents, annotations := [] }

/-- Validation loop of `SourceLine::annotate`: walk the existing references
in order, skip each one that ends at or before the new start, stop at the
first one that starts at or past the new end, and report a conflict on any
other reference. -/
def conflictScan (n : AnnotRef) : List AnnotRef → Bool
  | [] => false
  | r :: rs =>
    if r.position + r.len ≤ n.position then conflictScan n rs
    else if n.position + n.len ≤ r.position then false
    else true

/-- Insert of `SourceLine::annotate`: validate the new span with the scan
above, then push the annotation and re-sort. Rust re-sorts with the stable
`Vec::sort`; `List.insertionSort` is stable under the same comparison, so it
computes the identical list. On a conflict nothing is pushed. -/
def SourceLine.annotate (sl : SourceLine) (style : EntryKind) (reference : AnnotRef) (text : String) : Except ErrorKind SourceLine :=
  if conflictScan reference (sl.annotations.map Annot.reference) then
    .error .OverlappingAnnot
  else
    .ok { sl with annotations := List.insertionSort annLE (sl.annotations ++ [{ style := style, reference := reference, text := text }]) }

/-- Kind of a trailing note of a source block. -/
inductive NoteKind where
  | Help
  | Note
deriving DecidableEq, Repr

/-- Trailing note of a source block, from the `Note` struct of the source. -/
structure Note where
  kind : NoteKind
  text : String
deriving DecidableEq, Repr

/-- A source block, from the `Source` struct: an optional filename, the
anchor line and column printed in the location header, the annotated
lines, and the trailing notes. -/
structure Source where
  filename : Option String
  line_number : Nat
  position : Nat
  lines : List SourceLine
  notes : List Note
deriving DecidableEq, Repr

/-- Fresh anonymous source block anchored at the given line and column. -/
def Source.new (line_number : Nat) (position : Nat) : Source :=
  { filename := none, line_number := line_number, position := position, lines := [], notes := [] }

/-- Sets the filename shown in the location header. -/
def Source.set_filename (s : Source) (filename : String) : Source :=
  { s with filename := some filename }

/-- Appends a finished line to the block. -/
def Source.add_line (s : Source) (line : SourceLine) : Source :=
  { s with lines := s.lines ++ [line] }

/-- Count of characters Rust prints for a natural number: the length of its
decimal rendering. -/
def decimalWidth (n : Nat) : Nat :=
  (Nat.repr n).length

/-- Line-number column width computed by the display of `Source` when the
formatter carries no explicit width: the iterator maximum of the lines'
numbers, with the anchor `line_number` as the default for a block without
lines, rendered in decimal. -/
def Source.columnWidth (s : Source) : Nat :=
  decimalWidth ((iterMax (s.lines.map SourceLine.line)).getD s.line_number)

/-- A log entry, from the `Entry` struct of the source. -/
structure Entry where
  kind : EntryKind
  bright : Bool
  text : String
  source : Option Source
deriving DecidableEq, Repr

/-- Common constructor behind the four public entry constructors. -/
def Entry.new (kind : EntryKind) (text : String) : Entry :=
  { kind := kind, bright := false, text := text, source := none }

/-- Constructor of an error entry. -/
def Entry.new_error (text : String) : Entry := Entry.new .Error text

/-- Constructor of a warning entry. -/
def Entry.new_warning (text : String) : Entry := Entry.new .Warning text

/-- Constructor of a note entry. -/
def Entry.new_note (text : String) : Entry := Entry.new .Note text

/-- Constructor of a help entry. -/
def Entry.new_help (text : String) : Entry := Entry.new .Help text

/-- The source builder of an entry, from `EntrySourceBuilder`: the entry it
was created from, the source block under construction, and the one line
currently open for annotation. -/
structure EntrySourceBuilder where
  entry : Entry
  source : Source
  source_line : Option SourceLine
deriving DecidableEq, Repr

/-- Builder creation of `Entry::source`: it sets `bright` on the entry it
moves into the builder before any other work. -/
def Entry.sourceBuilder (e : Entry) (line_number : Nat) (pos : Nat) : EntrySourceBuilder :=
  { entry := { e with bright := true }, source := Source.new line_number pos, source_line := none }

/-- Builder creation of `Entry::named_source`: as `Entry::source`, with the
filename set on the fresh source block. -/
def Entry.namedSourceBuilder (e : Entry) (filename : String) (line_number : Nat) (pos : Nat) : EntrySourceBuilder :=
  { entry := { e with bright := true }, source := (Source.new line_number pos).set_filename filename, source_line := none }

/-- A group of entries rendered as a unit, from the `MultiEntry` struct. -/
structure MultiEntry where
  entries : List Entry
deriving DecidableEq, Repr

/-- Fresh empty group. -/
def MultiEntry.new : MultiEntry := { entries := [] }

/-- Appends one entry to the group. -/
def MultiEntry.entry (m : MultiEntry) (e : Entry) : MultiEntry :=
  { entries := m.entries ++ [e] }

/-- Shared column width computed by the display of `MultiEntry`: the
iterator maximum, over the members, of the anchor `line_number` of the
member's source (1 for a member without a source), defaulting to 1 for an
empty group, rendered in decimal; every member is then rendered with this
width. -/
def MultiEntry.columnWidth (m : MultiEntry) : Nat :=
  decimalWidth ((iterMax (m.entries.map fun e => (e.source.map Source.line_number).getD 1)).getD 1)

/-- Worst entry kind of a group, as computed inside `Target::log_multi_entry`:
the iterator maximum of the members' kinds, defaulting to Help when the
group is empty. -/
def MultiEntry.worstKind (m : MultiEntry) : EntryKind :=
  (iterMaxK (m.entries.map Entry.kind)).getD .Help

/-- Partial configuration carried by an error, from src/src/error.rs. -/
inductive PartialConfiguration where
  | None
  | Entry (e : Prologue.Entry)
  | EntrySourceBuilder (b : Prologue.EntrySourceBuilder)
  | MultiEntry (m : Prologue.MultiEntry)
deriving DecidableEq, Repr

/-- Error value of the crate: its kind together with the partially
constructed value handed back to the caller. -/
structure Error where
  kind : ErrorKind
  partial_configuration : PartialConfiguration
deriving DecidableEq, Repr

/-- Annotation step of the builder, behind `annotate_err`, `annotate_warn`,
`annotate_note` and `annotate_help`: with no line open it fails with
`AnnotationOnEmptyLine`; otherwise it delegates to the line's insert, and
on a conflict it returns the error with the untouched builder attached as
the partial configuration. -/
def EntrySourceBuilder.annotate (b : EntrySourceBuilder) (kind : EntryKind) (pos : Nat) (len : Nat) (text : String) : Except Error EntrySourceBuilder :=
  match b.source_line with
  | some line =>
    match line.annotate kind { position := pos, len := len } text with
    | .ok line2 => .ok { b with source_line := some line2 }
    | .error k => .error { kind := k, partial_configuration := .EntrySourceBuilder b }
  | none => .error { kind := .AnnotationOnEmptyLine, partial_configuration := .EntrySourceBuilder b }

/-- Error-severity annotation of the builder. -/
def EntrySourceBuilder.annotate_err (b : EntrySourceBuilder) (pos : Nat) (len : Nat) (text : String) : Except Error EntrySourceBuilder :=
  b.annotate .Error pos len text

/-- Warning-severity annotation of the builder. -/
def EntrySourceBuilder.annotate_warn (b : EntrySourceBuilder) (pos : Nat) (len : Nat) (text : String) : Except Error EntrySourceBuilder :=
  b.annotate .Warning pos len text

/-- Note-severity annotation of the builder. -/
def EntrySourceBuilder.annotate_note (b : EntrySourceBuilder) (pos : Nat) (len : Nat) (text : String) : Except Error EntrySourceBuilder :=
  b.annotate .Note pos len text

/-- Help-severity annotation of the builder. -/
def EntrySourceBuilder.annotate_help (b : EntrySourceBuilder) (pos : Nat) (len : Nat) (text : String) : Except Error EntrySourceBuilder :=
  b.annotate .Help pos len text

/-- Opens a new line in the builder; the previously open line, if any, is
flushed into the source block. -/
def EntrySourceBuilder.new_line (b : EntrySourceBuilder) (line_number : Nat) (src : String) : EntrySourceBuilder :=
  match b.source_line with
  | some old => { b with source := b.source.add_line old, source_line := some (SourceLine.new line_number src) }
  | none => { b with source_line := some (SourceLine.new line_number src) }

/-- Appends a trailing note to the source block under construction. -/
def EntrySourceBuilder.note (b : EntrySourceBuilder) (text : String) : EntrySourceBuilder :=
  { b with source := { b.source with notes := b.source.notes ++ [{ kind := NoteKind.Note, text := text }] } }

/-- Appends a trailing help to the source block under construction. -/
def EntrySourceBuilder.help (b : EntrySourceBuilder) (text : String) : EntrySourceBuilder :=
  { b with source := { b.source with notes := b.source.notes ++ [{ kind := NoteKind.Help, text := text }] } }

/-- Finishes the builder: the open line is flushed and the block is attached
to the entry. -/
def EntrySourceBuilder.finish (b : EntrySourceBuilder) : Entry :=
  match b.source_line with
  | some line => { b.entry with source := some (b.source.add_line line) }
  | none => { b.entry with source := some b.source }

/-- Discards the builder, handing back the entry it holds. -/
def EntrySourceBuilder.discard (b : EntrySourceBuilder) : Entry :=
  b.entry

/-- A log target, from the `Target` struct: its name and the two monotone
counters kept behind the mutex pair. -/
structure Target where
  name : String
  warnings : Nat
  errors : Nat
deriving DecidableEq, Repr

/-- Fresh target with both counters at zero. -/
def Target.new (name : String) : Target :=
  { name := name, warnings := 0, errors := 0 }

/-- Counter update of `Target::log_entry`; the write to the sink carries no
counter state. -/
def Target.log_entry (t : Target) (e : Entry) : Target :=
  match e.kind with
  | .Error => { t with errors := t.errors + 1 }
  | .Warning => { t with warnings := t.warnings + 1 }
  | _ => t

/-- Counter update of `Target::log_multi_entry`, driven by the group's
worst kind. -/
def Target.log_multi_entry (t : Target) (m : MultiEntry) : Target :=
  match m.worstKind with
  | .Error => { t with errors := t.errors + 1 }
  | .Warning => { t with warnings := t.warnings + 1 }
  | _ => t

/-- The registry of targets, from the `TargetList` struct. -/
abbrev TargetList := List Target

/-- Lookup of `TargetList::find`: the first target carrying the name. -/
def TargetList.find (l : TargetList) (name : String) : Option Target :=
  List.find? (fun t => t.name == name) l

/-- Insert of `TargetList::add_target`: on a name collision the registry is
returned unchanged together with the error; otherwise the target is pushed. -/
def TargetList.add_target (l : TargetList) (t : Target) : TargetList × Option ErrorKind :=
  match TargetList.find l t.name with
  | some other => (l, some (.TargetAlreadyExists other.name))
  | none => (l ++ [t], none)

/-- Creation of `TargetList::create_target`: a fresh target is built and
added, and handed back on success. -/
def TargetList.create_target (l : TargetList) (name : String) : TargetList × Except ErrorKind Target :=
  match TargetList.add_target l (Target.new name) with
  | (l2, none) => (l2, .ok (Target.new name))
  | (l2, some e) => (l2, .error e)

/-- Runs a sequence of annotation inserts on one line, stopping at the
first failure. -/
def runAnnotates (sl : SourceLine) : List (EntryKind × AnnotRef × String) → Except ErrorKind SourceLine
  | [] => .ok sl
  | (k, r, t) :: ops =>
    match sl.annotate k r t with
    | .ok sl2 => runAnnotates sl2 ops
    | .error e => .error e

/-- Cursor discipline of the drawing loops in the display of `SourceLine`:
`advance` left-pads with `position - offset` blanks — a natural-number
subtraction that is well defined only when the cursor has not passed the
annotation's start — and each drawn annotation moves the cursor to the end
of its span. -/
def noUnderflow (offset : Nat) : List AnnotRef → Bool
  | [] => true
  | r :: rs => offset ≤ r.position && noUnderflow (r.position + r.len) rs

/-- The display of a line walks, with the cursor starting at 0, every
prefix of its annotation list: the underline row walks all of it, and each
call-out row walks the annotations up to the one receiving its label. The
line renders without an underflowing subtraction exactly when every such
walk keeps the cursor at or before the next start. -/
def SourceLine.renderSafe (sl : SourceLine) : Bool :=
  (List.range (sl.annotations.length + 1)).all fun k =>
    noUnderflow 0 ((sl.annotations.map Annot.reference).take k)

/-- Builders reachable from entry `e`: created by `source` or
`named_source` on `e` and transformed by any sequence of builder
operations. -/
inductive BuilderFrom (e : Entry) : EntrySourceBuilder → Prop where
  | mk_source (line_number pos : Nat) : BuilderFrom e (e.sourceBuilder line_number pos)
  | mk_named (filename : String) (line_number pos : Nat) : BuilderFrom e (e.namedSourceBuilder filename line_number pos)
  | step_new_line (b : EntrySourceBuilder) (n : Nat) (s : String) : BuilderFrom e b → BuilderFrom e (b.new_line n s)
  | step_note (b : EntrySourceBuilder) (t : String) : BuilderFrom e b → BuilderFrom e (b.note t)
  | step_help (b : EntrySourceBuilder) (t : String) : BuilderFrom e b → BuilderFrom e (b.help t)
  | step_annotate (b b2 : EntrySourceBuilder) (k : EntryKind) (pos len : Nat) (t : String) :
      BuilderFrom e b → b.annotate k pos len t = .ok b2 → BuilderFrom e b2

/-- Builders on which `new_line` has never been called: created by `source`
or `named_source` and transformed only by `note` and `help` (an annotation
step on such a builder fails and hands the same builder back inside the
error, so no successful annotation step exists from one). -/
inductive NoLineYet : EntrySourceBuilder → Prop where
  | mk_source (e : Entry) (line_number pos : Nat) : NoLineYet (e.sourceBuilder line_number pos)
  | mk_named (e : Entry) (filename : String) (line_number pos : Nat) : NoLineYet (e.namedSourceBuilder filename line_number pos)
  | step_note (b : EntrySourceBuilder) (t : String) : NoLineYet b → NoLineYet (b.note t)
  | step_help (b : EntrySourceBuilder) (t : String) : NoLineYet b → NoLineYet (b.help t)

/-! Helper lemmas shared by the claim theorems. -/

/-- On a list of references sorted by position, the early-stopping scan of
`SourceLine::annotate` reports a conflict exactly when some reference in the
list overlaps the new one. -/
theorem conflictScan_iff_exists (n : AnnotRef) :
    ∀ rs : List AnnotRef, List.Pairwise (fun a b : AnnotRef => a.position ≤ b.position) rs →
      (conflictScan n rs = true ↔ ∃ r ∈ rs, AnnotRef.overlaps r n)
  | [], _ => by
    constructor
    · intro h
      exact Bool.noConfusion h
    · rintro ⟨x, hx, -⟩
      exact absurd hx (List.not_mem_nil x)
  | r :: rs, hs => by
    obtain ⟨hr, hrs⟩ := List.pairwise_cons.mp hs
    by_cases h1 : r.position + r.len ≤ n.position
    · have hno : ¬ AnnotRef.overlaps r n := fun hov => hov.1 h1
      rw [show conflictScan n (r :: rs) = conflictScan n rs by simp [conflictScan, h1]]
      rw [conflictScan_iff_exists n rs hrs]
      constructor
      · rintro ⟨x, hx, hov⟩
        exact ⟨x, List.mem_cons_of_mem _ hx, hov⟩
      · rintro ⟨x, hx, hov⟩
        rcases List.mem_cons.mp hx with rfl | hx
        · exact absurd hov hno
        · exact ⟨x, hx, hov⟩
    · by_cases h2 : n.position + n.len ≤ r.position
      · rw [show conflictScan n (r :: rs) = false by simp [conflictScan, h1, h2]]
        constructor
        · intro h
          exact Bool.noConfusion h
        · rintro ⟨x, hx, hov⟩
          exfalso
          rcases List.mem_cons.mp hx with rfl | hx
          · exact hov.2 h2
          · exact hov.2 (le_trans h2 (hr x hx))
      · rw [show conflictScan n (r :: rs) = true by simp [conflictScan, h1, h2]]
        constructor
        · intro _
          exact ⟨r, List.mem_cons_self r rs, ⟨h1, h2⟩⟩
        · intro _
          rfl

/-- A successful insert leaves the line's annotation list sorted: the new
list is the stable sort of the old list with the new annotation pushed. -/
theorem annotate_ok_sorted {sl sl2 : SourceLine} {k : EntryKind} {r : AnnotRef} {t : String}
    (h : sl.annotate k r t = .ok sl2) : List.Pairwise annLE sl2.annotations := by
  unfold SourceLine.annotate at h
  by_cases hc : conflictScan r (sl.annotations.map Annot.reference) = true
  · rw [if_pos hc] at h
    cases h
  · rw [if_neg hc] at h
    cases h
    exact List.sorted_insertionSort annLE _

/-- Every annotation of the line after a successful insert is an old one or
the newly inserted one. -/
theorem annotate_ok_mem {sl sl2 : SourceLine} {k : EntryKind} {r : AnnotRef} {t : String}
    (h : sl.annotate k r t = .ok sl2) :
    ∀ a ∈ sl2.annotations, a ∈ sl.annotations ∨ a = { style := k, reference := r, text := t } := by
  unfold SourceLine.annotate at h
  by_cases hc : conflictScan r (sl.annotations.map Annot.reference) = true
  · rw [if_pos hc] at h
    cases h
  · rw [if_neg hc] at h
    cases h
    intro a ha
    have := (List.mem_insertionSort annLE (x := a)).mp ha
    rcases List.mem_append.mp this with h' | h'
    · exact Or.inl h'
    · exact Or.inr (List.mem_singleton.mp h')

/-- Spans of two distinct annotations on one line stay disjoint. -/
def disjointA (a b : Annot) : Prop :=
  a.reference.position + a.reference.len ≤ b.reference.position
    ∨ b.reference.position + b.reference.len ≤ a.reference.position

/-- A successful insert on a sorted line whose annotations are pairwise
disjoint keeps them pairwise disjoint. -/
theorem annotate_ok_disjoint {sl sl2 : SourceLine} {k : EntryKind} {r : AnnotRef} {t : String}
    (hs : List.Pairwise annLE sl.annotations)
    (hd : List.Pairwise disjointA sl.annotations)
    (h : sl.annotate k r t = .ok sl2) :
    List.Pairwise disjointA sl2.annotations := by
  unfold SourceLine.annotate at h
  by_cases hc : conflictScan r (sl.annotations.map Annot.reference) = true
  · rw [if_pos hc] at h
    cases h
  · rw [if_neg hc] at h
    cases h
    have hperm := List.perm_insertionSort annLE (sl.annotations ++ [{ style := k, reference := r, text := t }])
    have hsym : ∀ {x y : Annot}, disjointA x y → disjointA y x := fun h => h.symm
    have hnew : ∀ a ∈ sl.annotations, disjointA a { style := k, reference := r, text := t } := by
      intro a ha
      have hov : ¬ AnnotRef.overlaps a.reference r := by
        intro hov
        exact hc ((conflictScan_iff_exists r _ (List.pairwise_map.mpr hs)).mpr
          ⟨a.reference, List.mem_map_of_mem _ ha, hov⟩)
      unfold AnnotRef.overlaps at hov
      unfold disjointA
      dsimp only
      omega
    have happ : List.Pairwise disjointA (sl.annotations ++ [{ style := k, reference := r, text := t }]) := by
      rw [List.pairwise_append]
      refine ⟨hd, List.pairwise_singleton _ _, ?_⟩
      intro a ha b hb
      rw [List.mem_singleton] at hb
      subst hb
      exact hnew a ha
    exact (List.Perm.pairwise_iff hsym hperm).mpr happ

/-- Annotations of a line in which every length is positive, sorted and
pairwise disjoint, form a left-to-right chain: each span ends at or before
the next span starts. -/
theorem chain_of_sorted_disjoint {l : List Annot}
    (hs : List.Pairwise annLE l) (hd : List.Pairwise disjointA l)
    (hpos : ∀ a ∈ l, 0 < a.reference.len) :
    List.Pairwise (fun a b : Annot => a.reference.position + a.reference.len ≤ b.reference.position) l := by
  refine (hs.and hd).imp_of_mem ?_
  intro a b _ hb hab
  have hbpos := hpos b hb
  obtain ⟨h1, h2⟩ := hab
  unfold annLE at h1
  unfold disjointA at h2
  omega

/-- Running the drawing cursor along a chained reference list never passes
the start of the next reference. -/
theorem noUnderflow_of_chain :
    ∀ (rs : List AnnotRef) (offset : Nat),
      List.Pairwise (fun a b : AnnotRef => a.position + a.len ≤ b.position) rs →
      (∀ r ∈ rs.head?, offset ≤ r.position) → noUnderflow offset rs = true
  | [], _, _, _ => rfl
  | r :: rs, offset, hp, hh => by
    obtain ⟨hr, hrs⟩ := List.pairwise_cons.mp hp
    have h1 : offset ≤ r.position := hh r rfl
    rw [show noUnderflow offset (r :: rs) =
        (decide (offset ≤ r.position) && noUnderflow (r.position + r.len) rs) from rfl]
    rw [Bool.and_eq_true]
    refine ⟨decide_eq_true h1, noUnderflow_of_chain rs _ hrs ?_⟩
    intro x hx
    cases rs with
    | nil => cases hx
    | cons y ys =>
      have hxy : y = x := by simpa using hx
      subst hxy
      exact hr _ (List.mem_cons_self _ _)

/-- Runs of successful inserts keep the line sorted, pairwise disjoint and,
when every inserted length is positive, all lengths positive. -/
theorem runAnnotates_inv :
    ∀ (ops : List (EntryKind × AnnotRef × String)) (sl0 sl : SourceLine),
      List.Pairwise annLE sl0.annotations →
      List.Pairwise disjointA sl0.annotations →
      (∀ a ∈ sl0.annotations, 0 < a.reference.len) →
      (∀ op ∈ ops, 0 < op.2.1.len) →
      runAnnotates sl0 ops = .ok sl →
      List.Pairwise annLE sl.annotations ∧ List.Pairwise disjointA sl.annotations
        ∧ ∀ a ∈ sl.annotations, 0 < a.reference.len
  | [], sl0, sl, hs, hd, hp, _, h => by
    cases h
    exact ⟨hs, hd, hp⟩
  | (k, r, t) :: ops, sl0, sl, hs, hd, hp, hop, h => by
    rw [show runAnnotates sl0 ((k, r, t) :: ops) =
        (match sl0.annotate k r t with
          | .ok sl2 => runAnnotates sl2 ops
          | .error e => .error e) from rfl] at h
    cases hh : sl0.annotate k r t with
    | ok sl1 =>
      rw [hh] at h
      have hrlen : 0 < r.len := hop (k, r, t) (List.mem_cons_self _ _)
      have hp1 : ∀ a ∈ sl1.annotations, 0 < a.reference.len := by
        intro a ha
        rcases annotate_ok_mem hh a ha with h' | h'
        · exact hp a h'
        · subst h'
          exact hrlen
      exact runAnnotates_inv ops sl1 sl (annotate_ok_sorted hh)
        (annotate_ok_disjoint hs hd hh) hp1
        (fun op hop' => hop op (List.mem_cons_of_mem _ hop')) h
    | error e =>
      rw [hh] at h
      cases h

/-- A run of successful inserts starting from a sorted line ends on a
sorted line, with no assumption on the inserted lengths. -/
theorem runAnnotates_ok_sorted :
    ∀ (ops : List (EntryKind × AnnotRef × String)) (sl0 sl : SourceLine),
      List.Pairwise annLE sl0.annotations → runAnnotates sl0 ops = .ok sl →
      List.Pairwise annLE sl.annotations
  | [], _, _, h0, h => by
    cases h
    exact h0
  | (k, r, t) :: ops, sl0, sl, _, h => by
    rw [show runAnnotates sl0 ((k, r, t) :: ops) =
        (match sl0.annotate k r t with
          | .ok sl2 => runAnnotates sl2 ops
          | .error e => .error e) from rfl] at h
    cases hh : sl0.annotate k r t with
    | ok sl1 =>
      rw [hh] at h
      exact runAnnotates_ok_sorted ops sl1 sl (annotate_ok_sorted hh) h
    | error e =>
      rw [hh] at h
      cases h

/-- Iterator maximum via foldl: the seed is a lower bound, every element is
a lower bound, and the result is the seed or one of the elements. -/
theorem foldl_max_spec :
    ∀ (ns : List Nat) (a : Nat),
      a ≤ ns.foldl Nat.max a ∧ (∀ x ∈ ns, x ≤ ns.foldl Nat.max a)
        ∧ (ns.foldl Nat.max a = a ∨ ns.foldl Nat.max a ∈ ns)
  | [], a => ⟨Nat.le_refl _, by simp, Or.inl rfl⟩
  | n :: ns, a => by
    obtain ⟨h1, h2, h3⟩ := foldl_max_spec ns (Nat.max a n)
    refine ⟨le_trans (Nat.le_max_left a n) h1, ?_, ?_⟩
    · intro x hx
      rcases List.mem_cons.mp hx with rfl | hx
      · exact le_trans (Nat.le_max_right a x) h1
      · exact h2 x hx
    · rcases h3 with h3 | h3
      · rw [List.foldl_cons, h3]
        rcases Nat.le_total a n with h | h
        · have hm : Nat.max a n = n := Nat.max_eq_right h
          rw [hm]
          exact Or.inr (List.mem_cons_self _ _)
        · have hm : Nat.max a n = a := Nat.max_eq_left h
          rw [hm]
          exact Or.inl rfl
      · exact Or.inr (List.mem_cons_of_mem _ h3)

/-- Pairwise maximum of entry kinds bounds both arguments and is one of
them. -/
theorem maxK_spec (a b : EntryKind) :
    a.toNat ≤ (a.maxK b).toNat ∧ b.toNat ≤ (a.maxK b).toNat ∧ (a.maxK b = a ∨ a.maxK b = b) := by
  unfold EntryKind.maxK
  split
  · exact ⟨by omega, Nat.le_refl _, Or.inr rfl⟩
  · exact ⟨Nat.le_refl _, by omega, Or.inl rfl⟩

/-- Iterator maximum of entry kinds via foldl: bounds and membership. -/
theorem foldl_maxK_spec :
    ∀ (ks : List EntryKind) (a : EntryKind),
      a.toNat ≤ (ks.foldl EntryKind.maxK a).toNat
        ∧ (∀ x ∈ ks, x.toNat ≤ (ks.foldl EntryKind.maxK a).toNat)
        ∧ (ks.foldl EntryKind.maxK a = a ∨ ks.foldl EntryKind.maxK a ∈ ks)
  | [], a => ⟨Nat.le_refl _, by simp, Or.inl rfl⟩
  | k :: ks, a => by
    obtain ⟨h1, h2, h3⟩ := foldl_maxK_spec ks (a.maxK k)
    obtain ⟨m1, m2, m3⟩ := maxK_spec a k
    refine ⟨le_trans m1 h1, ?_, ?_⟩
    · intro x hx
      rcases List.mem_cons.mp hx with rfl | hx
      · exact le_trans m2 h1
      · exact h2 x hx
    · rcases h3 with h3 | h3
      · rw [List.foldl_cons, h3]
        rcases m3 with m3 | m3
        · exact Or.inl m3
        · rw [m3]
          exact Or.inr (List.mem_cons_self _ _)
      · exact Or.inr (List.mem_cons_of_mem _ h3)

/-! Claim theorems. -/

/-- Claim C1: on a line whose annotations are sorted by span position (the
line's maintained invariant), an attempted insert — through any of the
severity wrappers, all of which call the one annotate step — fails only
with the overlap error; it fails exactly when the new half-open span
intersects the span of some annotation already on the line, touching
endpoints not conflicting; and when it fails through the builder, the
error hands back the untouched builder, so the line's annotation set after
the call is exactly the set it had before. -/
theorem annotate_overlap_iff (sl : SourceLine)
    (hs : List.Pairwise (fun a b : Annot => a.reference.position ≤ b.reference.position) sl.annotations)
    (k : EntryKind) (r : AnnotRef) (t : String) :
    (∀ e, sl.annotate k r t = .error e → e = .OverlappingAnnot)
    ∧ (sl.annotate k r t = .error .OverlappingAnnot
        ↔ ∃ a ∈ sl.annotations, AnnotRef.overlaps a.reference r)
    ∧ (∀ b : EntrySourceBuilder, b.source_line = some sl →
        (∃ a ∈ sl.annotations, AnnotRef.overlaps a.reference r) →
          b.annotate k r.position r.len t =
            .error { kind := .OverlappingAnnot, partial_configuration := .EntrySourceBuilder b }) := by
  have hmap : List.Pairwise (fun a b : AnnotRef => a.position ≤ b.position)
      (sl.annotations.map Annot.reference) := List.pairwise_map.mpr hs
  have hiff : conflictScan r (sl.annotations.map Annot.reference) = true
      ↔ ∃ a ∈ sl.annotations, AnnotRef.overlaps a.reference r := by
    rw [conflictScan_iff_exists r _ hmap]
    constructor
    · rintro ⟨x, hx, hov⟩
      obtain ⟨a, ha, rfl⟩ := List.mem_map.mp hx
      exact ⟨a, ha, hov⟩
    · rintro ⟨a, ha, hov⟩
      exact ⟨a.reference, List.mem_map_of_mem _ ha, hov⟩
  refine ⟨?_, ?_, ?_⟩
  · intro e he
    unfold SourceLine.annotate at he
    by_cases hc : conflictScan r (sl.annotations.map Annot.reference) = true
    · rw [if_pos hc] at he
      cases he
      rfl
    · rw [if_neg hc] at he
      cases he
  · rw [← hiff]
    unfold SourceLine.annotate
    by_cases hc : conflictScan r (sl.annotations.map Annot.reference) = true
    · rw [if_pos hc]
      exact ⟨fun _ => hc, fun _ => rfl⟩
    · rw [if_neg hc]
      constructor
      · intro h
        cases h
      · intro h
        exact absurd h hc
  · intro b hb hov
    have hc : conflictScan r (sl.annotations.map Annot.reference) = true := hiff.mpr hov
    simp only [EntrySourceBuilder.annotate, hb, SourceLine.annotate]
    rw [show AnnotRef.mk r.position r.len = r from rfl]
    rw [if_pos hc]

/-- Witness for C1 at scenario B of the spec: the span (18, 5) intersects
the already present span (22, 5), so the insert is rejected with the
overlap error. -/
theorem annotate_overlap_iff_witness :
    (SourceLine.mk 44 "    let result = 1 + 2 * 3;" [Annot.mk .Error (AnnotRef.mk 22 5) ""]).annotate
        .Error (AnnotRef.mk 18 5) "" = .error .OverlappingAnnot :=
  (annotate_overlap_iff _ (by decide) .Error (AnnotRef.mk 18 5) "").2.1.mpr (by decide)

/-- Claim C4: logging a single entry to a target increments the error
counter exactly when the entry's kind is Error and the warning counter
exactly when it is Warning; a Note or Help entry changes neither counter,
and the target's name never changes. -/
theorem log_entry_counters (t : Target) (e : Entry) :
    ((t.log_entry e).errors = t.errors + if e.kind = .Error then 1 else 0)
    ∧ ((t.log_entry e).warnings = t.warnings + if e.kind = .Warning then 1 else 0)
    ∧ (t.log_entry e).name = t.name := by
  unfold Target.log_entry
  cases he : e.kind <;> simp

/-- Claim C6: after any sequence of successful annotation inserts on a
fresh line, in any order of positions, the line's annotation list is
sorted by ascending span position. -/
theorem annotations_sorted (n : Nat) (c : String)
    (ops : List (EntryKind × AnnotRef × String)) (sl : SourceLine)
    (h : runAnnotates (SourceLine.new n c) ops = .ok sl) :
    List.Pairwise (fun a b : Annot => a.reference.position ≤ b.reference.position) sl.annotations :=
  runAnnotates_ok_sorted ops (SourceLine.new n c) sl List.Pairwise.nil h

/-- Witness for C6: inserting spans (13, 1) and then (9, 4) succeeds and
leaves the annotations sorted with (9, 4) first. -/
theorem annotations_sorted_witness :
    List.Pairwise (fun a b : Annot => a.reference.position ≤ b.reference.position)
      (SourceLine.mk 3 "    let mut x = 42;"
        [Annot.mk .Help (AnnotRef.mk 9 4) "", Annot.mk .Warning (AnnotRef.mk 13 1) ""]).annotations :=
  annotations_sorted 3 "    let mut x = 42;"
    [(.Warning, AnnotRef.mk 13 1, ""), (.Help, AnnotRef.mk 9 4, "")] _ rfl

/-- Counterexample to claim C2: a one-member group whose member's source is
anchored at line 5 but contains a source line numbered 1163. The claim
predicts a shared column width of 4 (the digit count of the maximum source
line number 1163); the code computes the width from the anchor
`line_number` of each member's source and renders with width 1. -/
theorem multi_entry_width_cex :
    (MultiEntry.mk [Entry.mk .Warning true "w"
        (some (Source.mk none 5 1 [SourceLine.mk 1163 "x" []] []))]).columnWidth = 1
    ∧ decimalWidth 1163 = 4 :=
  ⟨rfl, rfl⟩

/-- Claim C2 as amended: the shared column width of a rendered group is the
decimal digit count of the maximum, over all members, of the anchor
`line_number` of the member's source (1 for a member without a source, and
1 for the empty group) — the anchor of each member's source block, not the
maximum line number among its source lines. -/
theorem multi_entry_width_amended (m : MultiEntry) :
    (m.entries = [] → m.columnWidth = decimalWidth 1)
    ∧ (∀ e0 es, m.entries = e0 :: es →
        ∃ v, v ∈ m.entries.map (fun e => (e.source.map Source.line_number).getD 1)
          ∧ (∀ x ∈ m.entries.map (fun e => (e.source.map Source.line_number).getD 1), x ≤ v)
          ∧ m.columnWidth = decimalWidth v) := by
  constructor
  · intro h
    unfold MultiEntry.columnWidth
    rw [h]
    rfl
  · intro e0 es h
    unfold MultiEntry.columnWidth
    rw [h]
    rw [show (e0 :: es).map (fun e => (e.source.map Source.line_number).getD 1) =
        ((e0.source.map Source.line_number).getD 1)
          :: es.map (fun e => (e.source.map Source.line_number).getD 1) from rfl]
    rw [show iterMax (((e0.source.map Source.line_number).getD 1)
        :: es.map (fun e => (e.source.map Source.line_number).getD 1)) =
        some ((es.map (fun e => (e.source.map Source.line_number).getD 1)).foldl Nat.max
          ((e0.source.map Source.line_number).getD 1)) from rfl]
    obtain ⟨h1, h2, h3⟩ := foldl_max_spec
      (es.map (fun e => (e.source.map Source.line_number).getD 1))
      ((e0.source.map Source.line_number).getD 1)
    refine ⟨_, ?_, ?_, rfl⟩
    · rcases h3 with h3 | h3
      · rw [h3]
        exact List.mem_cons_self _ _
      · exact List.mem_cons_of_mem _ h3
    · intro x hx
      rcases List.mem_cons.mp hx with rfl | hx
      · exact h1
      · exact h2 x hx

/-- Counterexample to claim C3: a source block anchored at line 100 whose
only source line is numbered 5. The claim predicts a column width of 3
(the digit count of `max(anchor_line, 5) = 100`); the code takes the
maximum over the lines only — the anchor is merely the default for a block
without lines — and renders with width 1. -/
theorem source_width_cex :
    (Source.mk none 100 1 [SourceLine.mk 5 "x" []] []).columnWidth = 1
    ∧ decimalWidth (Nat.max 100 5) = 3 :=
  ⟨rfl, rfl⟩

/-- Claim C3 as amended: when no explicit width is supplied, the column
width of a source block is the decimal digit count of the maximum of the
lines' numbers alone; the anchor `line_number` does not participate in the
maximum and is used only as the default when the block has no lines. -/
theorem source_width_amended (s : Source) :
    (s.lines = [] → s.columnWidth = decimalWidth s.line_number)
    ∧ (∀ l0 ls, s.lines = l0 :: ls →
        ∃ v, v ∈ s.lines.map SourceLine.line
          ∧ (∀ x ∈ s.lines.map SourceLine.line, x ≤ v)
          ∧ s.columnWidth = decimalWidth v) := by
  constructor
  · intro h
    unfold Source.columnWidth
    rw [h]
    rfl
  · intro l0 ls h
    unfold Source.columnWidth
    rw [h]
    rw [show (l0 :: ls).map SourceLine.line = l0.line :: ls.map SourceLine.line from rfl]
    rw [show iterMax (l0.line :: ls.map SourceLine.line) =
        some ((ls.map SourceLine.line).foldl Nat.max l0.line) from rfl]
    obtain ⟨h1, h2, h3⟩ := foldl_max_spec (ls.map SourceLine.line) l0.line
    refine ⟨_, ?_, ?_, rfl⟩
    · rcases h3 with h3 | h3
      · rw [h3]
        exact List.mem_cons_self _ _
      · exact List.mem_cons_of_mem _ h3
    · intro x hx
      rcases List.mem_cons.mp hx with rfl | hx
      · exact h1
      · exact h2 x hx

/-- Claim C5: a group logged to a target as a unit updates the counter
chosen by the group's worst kind — the maximum of the members' kinds under
the order Help < Note < Warning < Error (witnessed by the discriminant
bounds and membership below), defaulting to Help for the empty group: an
Error-worst group increments the error counter by one, a Warning-worst
group the warning counter by one, and a Note- or Help-worst group (the
empty group included) changes neither counter. -/
theorem log_multi_entry_worst (t : Target) (m : MultiEntry) :
    ((t.log_multi_entry m).errors = t.errors + if m.worstKind = .Error then 1 else 0)
    ∧ ((t.log_multi_entry m).warnings = t.warnings + if m.worstKind = .Warning then 1 else 0)
    ∧ (t.log_multi_entry m).name = t.name
    ∧ (m.entries = [] → m.worstKind = .Help)
    ∧ (∀ e ∈ m.entries, e.kind.toNat ≤ m.worstKind.toNat)
    ∧ (m.entries = [] ∨ m.worstKind ∈ m.entries.map Entry.kind) := by
  refine ⟨?_, ?_, ?_, ?_, ?_, ?_⟩
  · unfold Target.log_multi_entry
    cases hw : m.worstKind <;> simp [hw]
  · unfold Target.log_multi_entry
    cases hw : m.worstKind <;> simp [hw]
  · unfold Target.log_multi_entry
    cases hw : m.worstKind <;> simp [hw]
  · intro h
    unfold MultiEntry.worstKind
    rw [h]
    rfl
  · intro e he
    unfold MultiEntry.worstKind
    cases hm : m.entries with
    | nil =>
      rw [hm] at he
      exact absurd he (List.not_mem_nil e)
    | cons e0 es =>
      rw [hm] at he
      rw [show (e0 :: es).map Entry.kind = e0.kind :: es.map Entry.kind from rfl]
      rw [show iterMaxK (e0.kind :: es.map Entry.kind) =
          some ((es.map Entry.kind).foldl EntryKind.maxK e0.kind) from rfl]
      obtain ⟨h1, h2, _⟩ := foldl_maxK_spec (es.map Entry.kind) e0.kind
      rcases List.mem_cons.mp he with rfl | he
      · exact h1
      · exact h2 e.kind (List.mem_map_of_mem _ he)
  · cases hm : m.entries with
    | nil => exact Or.inl rfl
    | cons e0 es =>
      refine Or.inr ?_
      unfold MultiEntry.worstKind
      rw [hm]
      rw [show (e0 :: es).map Entry.kind = e0.kind :: es.map Entry.kind from rfl]
      rw [show iterMaxK (e0.kind :: es.map Entry.kind) =
          some ((es.map Entry.kind).foldl EntryKind.maxK e0.kind) from rfl]
      obtain ⟨_, _, h3⟩ := foldl_maxK_spec (es.map Entry.kind) e0.kind
      rcases h3 with h3 | h3
      · rw [show Option.getD (some ((es.map Entry.kind).foldl EntryKind.maxK e0.kind)) EntryKind.Help =
            (es.map Entry.kind).foldl EntryKind.maxK e0.kind from rfl]
        rw [h3]
        exact List.mem_cons_self _ _
      · exact List.mem_cons_of_mem _ h3

/-- Claim C7: adding a target whose name is already in the registry fails
with the name-conflict error naming that target and leaves the registry's
contents unchanged; adding under a fresh name appends the target, and a
subsequent find under that name returns it. The same holds for creating a
fresh target by name. -/
theorem target_registry_unique (l : TargetList) (t : Target) (name : String) :
    (∀ u, TargetList.find l t.name = some u →
        TargetList.add_target l t = (l, some (.TargetAlreadyExists u.name)) ∧ u.name = t.name)
    ∧ (TargetList.find l t.name = none →
        TargetList.add_target l t = (l ++ [t], none)
          ∧ TargetList.find (l ++ [t]) t.name = some t)
    ∧ (∀ u, TargetList.find l name = some u →
        TargetList.create_target l name = (l, .error (.TargetAlreadyExists u.name)))
    ∧ (TargetList.find l name = none →
        TargetList.create_target l name = (l ++ [Target.new name], .ok (Target.new name))
          ∧ TargetList.find (l ++ [Target.new name]) name = some (Target.new name)) := by
  have hfind : ∀ (l2 : TargetList) (u : Target), TargetList.find l2 u.name = none →
      TargetList.find (l2 ++ [u]) u.name = some u := by
    intro l2 u hnone
    unfold TargetList.find at hnone ⊢
    rw [List.find?_append, hnone]
    rw [show List.find? (fun x => x.name == u.name) [u] =
        (match u.name == u.name with
          | true => some u
          | false => List.find? (fun x => x.name == u.name) []) from List.find?_cons]
    rw [beq_self_eq_true u.name]
    rfl
  refine ⟨?_, ?_, ?_, ?_⟩
  · intro u hu
    refine ⟨?_, ?_⟩
    · unfold TargetList.add_target
      rw [hu]
    · have hu2 : List.find? (fun x => x.name == t.name) l = some u := hu
      have hp := @List.find?_some Target (fun x : Target => x.name == t.name) u l hu2
      exact eq_of_beq hp
  · intro hnone
    refine ⟨?_, ?_⟩
    · unfold TargetList.add_target
      rw [hnone]
    · exact hfind l t hnone
  · intro u hu
    unfold TargetList.create_target TargetList.add_target
    rw [show (Target.new name).name = name from rfl, hu]
  · intro hnone
    constructor
    · unfold TargetList.create_target TargetList.add_target
      rw [show (Target.new name).name = name from rfl, hnone]
    · exact hfind l (Target.new name) hnone

/-- Counterexample to claim C8: creating a source builder on a fresh error
entry and discarding it at once hands back an entry whose `bright`
(emphasize) flag is `true`, while the entry held `false` before the builder
was created — `Entry::source` sets the flag on the entry it moves into the
builder, and `discard` does not undo it. -/
theorem discard_bright_cex :
    ((Entry.new_error "mismatched types").sourceBuilder 44 25).discard.bright = true
    ∧ (Entry.new_error "mismatched types").bright = false :=
  ⟨rfl, rfl⟩

/-- Claim C8 as amended: after any sequence of builder operations,
`discard` returns the original entry with its kind, message text and source
field untouched — only the emphasize (`bright`) flag differs, set to `true`
at builder creation by `source`/`named_source`. -/
theorem discard_returns_entry (e : Entry) (b : EntrySourceBuilder) (h : BuilderFrom e b) :
    b.discard = { e with bright := true } := by
  induction h with
  | mk_source line_number pos => rfl
  | mk_named filename line_number pos => rfl
  | step_new_line b n s _ ih =>
    unfold EntrySourceBuilder.discard EntrySourceBuilder.new_line
    unfold EntrySourceBuilder.discard at ih
    cases b.source_line <;> exact ih
  | step_note b t _ ih => exact ih
  | step_help b t _ ih => exact ih
  | step_annotate b b2 k pos len t _ hok ih =>
    unfold EntrySourceBuilder.annotate at hok
    split at hok
    · split at hok
      · cases hok
        exact ih
      · cases hok
    · cases hok

/-- Witness for C8 as amended: a builder carrying a line and a note still
discards back to the original entry with only the bright flag set. -/
theorem discard_returns_entry_witness :
    ((((Entry.new_warning "w").sourceBuilder 5 5).new_line 5 "use std::io::Read;").note "n").discard
      = { (Entry.new_warning "w") with bright := true } :=
  discard_returns_entry (Entry.new_warning "w") _
    (BuilderFrom.step_note _ "n" (BuilderFrom.step_new_line _ 5 "use std::io::Read;"
      (BuilderFrom.mk_source 5 5)))

/-- A builder on which `new_line` has never been called holds no open line. -/
theorem no_line_source_none (b : EntrySourceBuilder) (h : NoLineYet b) :
    b.source_line = none := by
  induction h with
  | mk_source e line_number pos => rfl
  | mk_named e filename line_number pos => rfl
  | step_note b t _ ih => exact ih
  | step_help b t _ ih => exact ih

/-- Claim C9: on a builder on which `new_line` has never been called, every
annotation call — any severity wrapper, any span, any text — fails with the
`AnnotationOnEmptyLine` error, and the error carries the partially
constructed builder itself so the caller can recover the work built so
far. -/
theorem annotate_empty_line (b : EntrySourceBuilder) (h : NoLineYet b)
    (k : EntryKind) (pos len : Nat) (t : String) :
    b.annotate k pos len t =
      .error { kind := .AnnotationOnEmptyLine, partial_configuration := .EntrySourceBuilder b } := by
  unfold EntrySourceBuilder.annotate
  rw [no_line_source_none b h]

/-- Witness for C9: annotating right after `named_source`, with a help note
already attached but no line, fails and hands the builder back. -/
theorem annotate_empty_line_witness :
    (((Entry.new_warning "w").namedSourceBuilder "src/main.rs" 3 9).help "h").annotate .Help 9 4 "x"
      = .error (Error.mk .AnnotationOnEmptyLine (.EntrySourceBuilder
          (((Entry.new_warning "w").namedSourceBuilder "src/main.rs" 3 9).help "h"))) :=
  annotate_empty_line _ (NoLineYet.step_help _ "h"
    (NoLineYet.mk_named (Entry.new_warning "w") "src/main.rs" 3 9)) .Help 9 4 "x"

/-- Counterexample to claim C10: both inserts succeed — the span (5, 0) is
empty, so the scan finds no overlap with the span (5, 5) already present —
yet the sorted list keeps (5, 5) first, and the underline row's cursor
stands at 10 when it reaches the annotation at position 5, so the padding
subtraction underflows. -/
theorem render_underflow_cex :
    runAnnotates (SourceLine.new 1 "use std::io::Read;")
        [(.Warning, AnnotRef.mk 5 5, ""), (.Warning, AnnotRef.mk 5 0, "")] =
      .ok (SourceLine.mk 1 "use std::io::Read;"
        [Annot.mk .Warning (AnnotRef.mk 5 5) "", Annot.mk .Warning (AnnotRef.mk 5 0) ""])
    ∧ (SourceLine.mk 1 "use std::io::Read;"
        [Annot.mk .Warning (AnnotRef.mk 5 5) "", Annot.mk .Warning (AnnotRef.mk 5 0) ""]).renderSafe
      = false :=
  ⟨rfl, rfl⟩

/-- Claim C10 as amended: on a line whose annotations were all inserted
through successful annotate calls of positive length, every left-to-right
drawing walk keeps the running cursor at most the next annotation's
position, so no padding subtraction underflows and the rendering cannot
panic on such a line. -/
theorem render_safe_of_positive (n : Nat) (c : String)
    (ops : List (EntryKind × AnnotRef × String)) (sl : SourceLine)
    (h : runAnnotates (SourceLine.new n c) ops = .ok sl)
    (hpos : ∀ op ∈ ops, 0 < op.2.1.len) :
    sl.renderSafe = true := by
  obtain ⟨hs, hd, hp⟩ := runAnnotates_inv ops (SourceLine.new n c) sl
    List.Pairwise.nil List.Pairwise.nil
    (fun a ha => absurd ha (List.not_mem_nil a)) hpos h
  have hchain := chain_of_sorted_disjoint hs hd hp
  have hrefs : List.Pairwise (fun a b : AnnotRef => a.position + a.len ≤ b.position)
      (sl.annotations.map Annot.reference) := List.pairwise_map.mpr hchain
  unfold SourceLine.renderSafe
  rw [List.all_eq_true]
  intro x hx
  apply noUnderflow_of_chain
  · exact List.Pairwise.sublist (List.take_sublist _ _) hrefs
  · intro r _
    exact Nat.zero_le _

/-- Witness for C10 as amended: two positive-length inserts in descending
position order leave a line whose rendering walks are all safe. -/
theorem render_safe_of_positive_witness :
    (SourceLine.mk 3 "    let mut x = 42;"
      [Annot.mk .Help (AnnotRef.mk 9 4) "help: remove this `mut`",
        Annot.mk .Warning (AnnotRef.mk 13 1) ""]).renderSafe = true :=
  render_safe_of_positive 3 "    let mut x = 42;"
    [(.Warning, AnnotRef.mk 13 1, ""), (.Help, AnnotRef.mk 9 4, "help: remove this `mut`")] _
    rfl (by decide)

end Prologue
